import Mathlib

/-!
Shallow embedding of the temporal addressing subsystem of the
`timetableau` crate (`src/ranged.rs`, `src/timeslot.rs`): the bounded
integer wrapper, the `Week` / `ActiveDay` / `Period` enumerations, the
`TimeSlot` triple with its linear-index conversion, the wall-clock
classifier, and the `timeslot!` token table.

Rust `usize` values are modelled as `Nat` (all values involved are tiny,
so no overflow behaviour is observable); fallible operations returning
`Option`/`Result` are modelled as `Option`/`Except`.
-/

/-- The week of an alternating two-week timetable (`Week` in
`src/timeslot.rs`), with discriminants `One = 0`, `Two = 1`. -/
inductive Week where
  | One
  | Two
deriving DecidableEq, Fintype, Repr

/-- The number of `Week`s per iteration (`Week::PER_ITERATION`). -/
def Week.PER_ITERATION : Nat := 2

/-- The integer value of a `Week` variant (the Rust `as usize` cast of the
assigned discriminants `One = 0`, `Two = 1`). -/
def Week.toNat : Week → Nat
  | .One => 0
  | .Two => 1

/-- An active day in a week (`ActiveDay` in `src/timeslot.rs`),
discriminants `Monday = 0` .. `Friday = 4`. -/
inductive ActiveDay where
  | Monday
  | Tuesday
  | Wednesday
  | Thursday
  | Friday
deriving DecidableEq, Fintype, Repr

/-- The number of `ActiveDay`s per week (`ActiveDay::PER_WEEK`). -/
def ActiveDay.PER_WEEK : Nat := 5

/-- Rust `ActiveDay::num_days_from_monday` (`self as usize`). -/
def ActiveDay.num_days_from_monday : ActiveDay → Nat
  | .Monday => 0
  | .Tuesday => 1
  | .Wednesday => 2
  | .Thursday => 3
  | .Friday => 4

/-- Rust `ActiveDay::from_usize`, the `num_traits::FromPrimitive` method used
by `TimeSlot::with_index`; its default implementation delegates to the
`from_u64` match written in `src/timeslot.rs` (the cast is lossless for
the values involved). -/
def ActiveDay.from_usize (n : Nat) : Option ActiveDay :=
  match n with
  | 0 => some .Monday
  | 1 => some .Tuesday
  | 2 => some .Wednesday
  | 3 => some .Thursday
  | 4 => some .Friday
  | _ => none

/-- The seven-day weekday type consumed from `chrono` (`chrono::Weekday`). -/
inductive Weekday where
  | Mon
  | Tue
  | Wed
  | Thu
  | Fri
  | Sat
  | Sun
deriving DecidableEq, Repr

/-- Rust `TryFrom<Weekday> for ActiveDay` (`src/timeslot.rs`): `Result` is
modelled as `Except`; Saturday and Sunday are not active days. -/
def ActiveDay.try_from : Weekday → Except Unit ActiveDay
  | .Mon => .ok .Monday
  | .Tue => .ok .Tuesday
  | .Wed => .ok .Wednesday
  | .Thu => .ok .Thursday
  | .Fri => .ok .Friday
  | .Sat => .error ()
  | .Sun => .error ()

/-- A period of an active day (`Period` in `src/timeslot.rs`), with the
discriminants assigned in the source (`Tutor = 0` .. `Fifth = 7`). -/
inductive Period where
  | Tutor
  | First
  | Second
  | Break
  | Third
  | Fourth
  | Lunch
  | Fifth
deriving DecidableEq, Fintype, Repr

/-- The integer value of a `Period` variant (the Rust `as usize` cast). -/
def Period.toNat : Period → Nat
  | .Tutor => 0
  | .First => 1
  | .Second => 2
  | .Break => 3
  | .Third => 4
  | .Fourth => 5
  | .Lunch => 6
  | .Fifth => 7

/-- Rust `Period::PER_DAY`. -/
def Period.PER_DAY : Nat := 8

/-- Rust `Period::PER_WEEK = PER_DAY * ActiveDay::PER_WEEK`. -/
def Period.PER_WEEK : Nat := Period.PER_DAY * ActiveDay.PER_WEEK

/-- Rust `Period::PER_ITERATION = PER_WEEK * Week::PER_ITERATION`. -/
def Period.PER_ITERATION : Nat := Period.PER_WEEK * Week.PER_ITERATION

/-- A `chrono::NaiveTime` as observed by this crate: hour, minute, second
and sub-second components. `Period::from_time` reads only `hour()` and
`minute()`. -/
structure NaiveTime where
  hour : Nat
  minute : Nat
  second : Nat
  nanosecond : Nat
deriving DecidableEq, Repr

/-- Rust `Period::from_time` (`src/timeslot.rs`): computes the minutes since
midnight and matches the inclusive ranges of the source (`505..=529` for
Tutor, and so on); each `if` mirrors one range pattern of the Rust
`match`, in order. -/
def Period.from_time (time : NaiveTime) : Option Period :=
  let x := time.hour * 60 + time.minute
  if 505 ≤ x ∧ x ≤ 529 then some .Tutor
  else if 530 ≤ x ∧ x ≤ 589 then some .First
  else if 590 ≤ x ∧ x ≤ 649 then some .Second
  else if 650 ≤ x ∧ x ≤ 669 then some .Break
  else if 670 ≤ x ∧ x ≤ 729 then some .Third
  else if 730 ≤ x ∧ x ≤ 789 then some .Fourth
  else if 790 ≤ x ∧ x ≤ 834 then some .Lunch
  else if 835 ≤ x ∧ x ≤ 894 then some .Fifth
  else none

/-- Rust `Period::with_index` (`src/timeslot.rs`). -/
def Period.with_index (index : Nat) : Option Period :=
  match index with
  | 0 => some .Tutor
  | 1 => some .First
  | 2 => some .Second
  | 3 => some .Break
  | 4 => some .Third
  | 5 => some .Fourth
  | 6 => some .Lunch
  | 7 => some .Fifth
  | _ => none

/-- The ranged-`usize` wrapper: the `ranged_types!` macro body of
`src/ranged.rs` instantiated at `usize` (as consumed by
`TimeSlot::with_index`). The constructor being the only way to build a
value in Rust, the range invariant is carried as proof fields. -/
structure RangedUsize (MIN MAX : Nat) where
  val : Nat
  hmin : MIN ≤ val
  hmax : val ≤ MAX

/-- Rust `RangedUsize::new` (`src/ranged.rs` macro body): `Some` exactly when
`MIN <= value && value <= MAX`. -/
def RangedUsize.new (MIN MAX : Nat) (value : Nat) : Option (RangedUsize MIN MAX) :=
  if h : MIN ≤ value ∧ value ≤ MAX then some ⟨value, h.1, h.2⟩ else none

/-- Rust `RangedUsize::get`: returns the wrapped value. -/
def RangedUsize.get {MIN MAX : Nat} (self : RangedUsize MIN MAX) : Nat :=
  self.val

/-- The `ranged_types!` macro body of `src/ranged.rs` at a signed
primitive type (`RangedI8` .. `RangedI64`); the primitive values are
modelled as `Int`. The body is textually identical for every
instantiated type. -/
structure RangedInt (MIN MAX : Int) where
  val : Int
  hmin : MIN ≤ val
  hmax : val ≤ MAX

/-- Rust `new` for the signed ranged types (`src/ranged.rs` macro body). -/
def RangedInt.new (MIN MAX : Int) (value : Int) : Option (RangedInt MIN MAX) :=
  if h : MIN ≤ value ∧ value ≤ MAX then some ⟨value, h.1, h.2⟩ else none

/-- Rust `get` for the signed ranged types: returns the wrapped value. -/
def RangedInt.get {MIN MAX : Int} (self : RangedInt MIN MAX) : Int :=
  self.val

/-- A specific timeslot (`TimeSlot` in `src/timeslot.rs`). -/
structure TimeSlot where
  week : Week
  day : ActiveDay
  period : Period
deriving DecidableEq, Fintype, Repr

/-- Rust `TimeSlot::PER_DAY`. -/
def TimeSlot.PER_DAY : Nat := Period.PER_DAY

/-- Rust `TimeSlot::PER_WEEK`. -/
def TimeSlot.PER_WEEK : Nat := Period.PER_WEEK

/-- Rust `TimeSlot::PER_ITERATION`. -/
def TimeSlot.PER_ITERATION : Nat := Period.PER_ITERATION

/-- The body of `TimeSlot::with_index` after reading the inner value of
the ranged index (`let index = index.get();` in the source). Each
`unwrap()` is modelled by `Option.getD`; the default branches are proved
unreachable for indices below `PER_ITERATION`. -/
def TimeSlot.decodeRaw (index : Nat) : TimeSlot :=
  { week := if index / TimeSlot.PER_WEEK = 0 then Week.One else Week.Two
    day := (ActiveDay.from_usize ((index % TimeSlot.PER_WEEK) / TimeSlot.PER_DAY)).getD
      ActiveDay.Monday
    period := (Period.with_index (index % TimeSlot.PER_DAY)).getD Period.Tutor }

/-- Rust `TimeSlot::with_index` (`src/timeslot.rs`). -/
def TimeSlot.with_index (index : RangedUsize 0 (TimeSlot.PER_ITERATION - 1)) : TimeSlot :=
  TimeSlot.decodeRaw index.get

/-- Rust `TimeSlot::index` (`src/timeslot.rs`). -/
def TimeSlot.index (self : TimeSlot) : Nat :=
  self.week.toNat * TimeSlot.PER_WEEK
    + self.day.num_days_from_monday * TimeSlot.PER_DAY
    + self.period.toNat

/-- A `chrono::DateTime<Tz>` as observed by `TimeSlot::from_datetime`:
its weekday (`datetime.weekday()`) and its local time of day
(`datetime.time()`). -/
structure DateTime where
  weekday : Weekday
  time : NaiveTime
deriving DecidableEq, Repr

/-- Rust `TimeSlot::from_datetime` (`src/timeslot.rs`): converts the weekday
(failing for Saturday/Sunday), classifies the time of day, and composes
the `TimeSlot` with the supplied `week`. -/
def TimeSlot.from_datetime (week : Week) (datetime : DateTime) : Option TimeSlot :=
  match (ActiveDay.try_from datetime.weekday).toOption with
  | none => none
  | some day =>
    match Period.from_time datetime.time with
    | none => none
    | some time_slot => some { week := week, day := day, period := time_slot }

/-- The uniform expansion of one `timeslot!` macro arm
(`TimeSlot::with_index(RangedUsize::new(k).unwrap())` in
`src/timeslot.rs`); `unwrap()` is modelled by `Option.getD` (the `new`
calls in the table all succeed, so the default is never used). -/
def timeslotArm (k : Nat) : TimeSlot :=
  TimeSlot.with_index
    ((RangedUsize.new 0 (TimeSlot.PER_ITERATION - 1) k).getD
      ⟨0, Nat.le_refl 0, by decide⟩)

/-- The token-to-`TimeSlot` direction of the `timeslot!` table
(`src/timeslot.rs`): each arm of the macro expands the token `W..` to
`TimeSlot::with_index(RangedUsize::new(k).unwrap())`; a token not in
the table fails (modelled as `none`). -/
def decode (t : String) : Option TimeSlot :=
  match t with
  | "W1MPT" => some (timeslotArm 0)
  | "W1MP1" => some (timeslotArm 1)
  | "W1MP2" => some (timeslotArm 2)
  | "W1MPB" => some (timeslotArm 3)
  | "W1MP3" => some (timeslotArm 4)
  | "W1MP4" => some (timeslotArm 5)
  | "W1MPL" => some (timeslotArm 6)
  | "W1MP5" => some (timeslotArm 7)
  | "W1TPT" => some (timeslotArm 8)
  | "W1TP1" => some (timeslotArm 9)
  | "W1TP2" => some (timeslotArm 10)
  | "W1TPB" => some (timeslotArm 11)
  | "W1TP3" => some (timeslotArm 12)
  | "W1TP4" => some (timeslotArm 13)
  | "W1TPL" => some (timeslotArm 14)
  | "W1TP5" => some (timeslotArm 15)
  | "W1WPT" => some (timeslotArm 16)
  | "W1WP1" => some (timeslotArm 17)
  | "W1WP2" => some (timeslotArm 18)
  | "W1WPB" => some (timeslotArm 19)
  | "W1WP3" => some (timeslotArm 20)
  | "W1WP4" => some (timeslotArm 21)
  | "W1WPL" => some (timeslotArm 22)
  | "W1WP5" => some (timeslotArm 23)
  | "W1RPT" => some (timeslotArm 24)
  | "W1RP1" => some (timeslotArm 25)
  | "W1RP2" => some (timeslotArm 26)
  | "W1RPB" => some (timeslotArm 27)
  | "W1RP3" => some (timeslotArm 28)
  | "W1RP4" => some (timeslotArm 29)
  | "W1RPL" => some (timeslotArm 30)
  | "W1RP5" => some (timeslotArm 31)
  | "W1FPT" => some (timeslotArm 32)
  | "W1FP1" => some (timeslotArm 33)
  | "W1FP2" => some (timeslotArm 34)
  | "W1FPB" => some (timeslotArm 35)
  | "W1FP3" => some (timeslotArm 36)
  | "W1FP4" => some (timeslotArm 37)
  | "W1FPL" => some (timeslotArm 38)
  | "W1FP5" => some (timeslotArm 39)
  | "W2MPT" => some (timeslotArm 40)
  | "W2MP1" => some (timeslotArm 41)
  | "W2MP2" => some (timeslotArm 42)
  | "W2MPB" => some (timeslotArm 43)
  | "W2MP3" => some (timeslotArm 44)
  | "W2MP4" => some (timeslotArm 45)
  | "W2MPL" => some (timeslotArm 46)
  | "W2MP5" => some (timeslotArm 47)
  | "W2TPT" => some (timeslotArm 48)
  | "W2TP1" => some (timeslotArm 49)
  | "W2TP2" => some (timeslotArm 50)
  | "W2TPB" => some (timeslotArm 51)
  | "W2TP3" => some (timeslotArm 52)
  | "W2TP4" => some (timeslotArm 53)
  | "W2TPL" => some (timeslotArm 54)
  | "W2TP5" => some (timeslotArm 55)
  | "W2WPT" => some (timeslotArm 56)
  | "W2WP1" => some (timeslotArm 57)
  | "W2WP2" => some (timeslotArm 58)
  | "W2WPB" => some (timeslotArm 59)
  | "W2WP3" => some (timeslotArm 60)
  | "W2WP4" => some (timeslotArm 61)
  | "W2WPL" => some (timeslotArm 62)
  | "W2WP5" => some (timeslotArm 63)
  | "W2RPT" => some (timeslotArm 64)
  | "W2RP1" => some (timeslotArm 65)
  | "W2RP2" => some (timeslotArm 66)
  | "W2RPB" => some (timeslotArm 67)
  | "W2RP3" => some (timeslotArm 68)
  | "W2RP4" => some (timeslotArm 69)
  | "W2RPL" => some (timeslotArm 70)
  | "W2RP5" => some (timeslotArm 71)
  | "W2FPT" => some (timeslotArm 72)
  | "W2FP1" => some (timeslotArm 73)
  | "W2FP2" => some (timeslotArm 74)
  | "W2FPB" => some (timeslotArm 75)
  | "W2FP3" => some (timeslotArm 76)
  | "W2FP4" => some (timeslotArm 77)
  | "W2FPL" => some (timeslotArm 78)
  | "W2FP5" => some (timeslotArm 79)
  | _ => none

/-- Modelled from the spec: the `TimeSlot -> token` direction of the
notation codec (the source realises the codec only as the token-keyed
`timeslot!` table; the canonical uppercase form is given by the grammar
of the specification). Week digit of the canonical token. -/
def weekDigit : Week → Char
  | .One => '1'
  | .Two => '2'

/-- Modelled from the spec: day letter of the canonical token
(`R` is Thursday). -/
def dayLetter : ActiveDay → Char
  | .Monday => 'M'
  | .Tuesday => 'T'
  | .Wednesday => 'W'
  | .Thursday => 'R'
  | .Friday => 'F'

/-- Modelled from the spec: period code of the canonical token (digits
`1`..`5` for academic periods; `T`, `B`, `L` for tutor, break, lunch). -/
def periodCode : Period → Char
  | .Tutor => 'T'
  | .First => '1'
  | .Second => '2'
  | .Break => 'B'
  | .Third => '3'
  | .Fourth => '4'
  | .Lunch => 'L'
  | .Fifth => '5'

/-- Modelled from the spec: `encode(slot) -> token`, the canonical
uppercase form `W` + week digit + day letter + `P` + period code. -/
def encode (s : TimeSlot) : String :=
  String.mk ['W', weekDigit s.week, dayLetter s.day, 'P', periodCode s.period]

/-- Modelled from the spec: the language of the token grammar
`W {1|2} {M|T|W|R|F} P {1..5|T|B|L}` — all syntactically valid tokens in
canonical uppercase form. -/
def grammarTokens : List String :=
  ['1', '2'].flatMap fun w =>
    ['M', 'T', 'W', 'R', 'F'].flatMap fun d =>
      ['T', '1', '2', 'B', '3', '4', 'L', '5'].map fun p =>
        String.mk ['W', w, d, 'P', p]

/-- The interval table of the specification, start minute (inclusive) of
each slot, used to state C4 against `Period.from_time`. -/
def Period.startMinute : Period → Nat
  | .Tutor => 505
  | .First => 530
  | .Second => 590
  | .Break => 650
  | .Third => 670
  | .Fourth => 730
  | .Lunch => 790
  | .Fifth => 835

/-- The interval table of the specification, end minute (exclusive) of
each slot. -/
def Period.endMinute : Period → Nat
  | .Tutor => 530
  | .First => 590
  | .Second => 650
  | .Break => 670
  | .Third => 730
  | .Fourth => 790
  | .Lunch => 835
  | .Fifth => 895

lemma PER_ITERATION_eq_80 : TimeSlot.PER_ITERATION = 80 := rfl

lemma decodeRaw_index_all : ∀ j : Fin 80, (TimeSlot.decodeRaw j.val).index = j.val := by decide

lemma index_lt_all : ∀ s : TimeSlot, s.index < TimeSlot.PER_ITERATION := by decide

lemma decodeRaw_index_inv_all : ∀ s : TimeSlot, TimeSlot.decodeRaw s.index = s := by decide

/-- C1: for every index `i` in `[0, 80)` (80 being `PER_ITERATION` under
the eight-slot schema), decoding `i` with `TimeSlot.with_index` and
re-encoding the result with `TimeSlot.index` returns `i`. -/
theorem with_index_index_roundtrip (i : Nat) (h : i < TimeSlot.PER_ITERATION) :
    (TimeSlot.with_index ⟨i, Nat.zero_le i, by omega⟩).index = i :=
  decodeRaw_index_all ⟨i, PER_ITERATION_eq_80 ▸ h⟩

theorem with_index_index_roundtrip_witness :
    (TimeSlot.with_index ⟨5, Nat.zero_le 5, by decide⟩).index = 5 :=
  with_index_index_roundtrip 5 (by decide)

/-- C2: every `TimeSlot` has an index below `PER_ITERATION` (so the index
is a valid decode input), and decoding that index with
`TimeSlot.with_index` returns the same `TimeSlot`. -/
theorem index_with_index_roundtrip (s : TimeSlot) :
    s.index < TimeSlot.PER_ITERATION ∧
    ∀ (h0 : 0 ≤ s.index) (h1 : s.index ≤ TimeSlot.PER_ITERATION - 1),
      TimeSlot.with_index ⟨s.index, h0, h1⟩ = s :=
  ⟨index_lt_all s, fun _ _ => decodeRaw_index_inv_all s⟩

theorem index_with_index_roundtrip_witness :
    TimeSlot.with_index
        ⟨TimeSlot.index ⟨Week.One, ActiveDay.Wednesday, Period.Fifth⟩, Nat.zero_le _, by decide⟩
      = ⟨Week.One, ActiveDay.Wednesday, Period.Fifth⟩ :=
  (index_with_index_roundtrip ⟨Week.One, ActiveDay.Wednesday, Period.Fifth⟩).2
    (Nat.zero_le _) (by decide)

lemma mixed_radix_all : ∀ j : Fin 80,
    (TimeSlot.decodeRaw j.val).week = (if j.val / 40 = 0 then Week.One else Week.Two) ∧
    (TimeSlot.decodeRaw j.val).day.num_days_from_monday = (j.val % 40) / 8 ∧
    (TimeSlot.decodeRaw j.val).period.toNat = j.val % 8 := by decide

/-- C3: `TimeSlot.with_index` is the mixed-radix decomposition with
radices (2, 5, 8): the decoded week is `One` exactly when `i / 40 = 0`,
the decoded day has ordinal `(i % 40) / 8`, the decoded period has
ordinal `i % 8`; index 0 decodes to week one Monday tutor-time and index
79 to week two Friday fifth period. -/
theorem with_index_mixed_radix (i : Nat) (h : i < TimeSlot.PER_ITERATION) :
    (TimeSlot.with_index ⟨i, Nat.zero_le i, by omega⟩).week
        = (if i / 40 = 0 then Week.One else Week.Two) ∧
    (TimeSlot.with_index ⟨i, Nat.zero_le i, by omega⟩).day.num_days_from_monday
        = (i % 40) / 8 ∧
    (TimeSlot.with_index ⟨i, Nat.zero_le i, by omega⟩).period.toNat = i % 8 ∧
    TimeSlot.with_index ⟨0, Nat.zero_le 0, by decide⟩
        = { week := Week.One, day := ActiveDay.Monday, period := Period.Tutor } ∧
    TimeSlot.with_index ⟨79, Nat.zero_le 79, by decide⟩
        = { week := Week.Two, day := ActiveDay.Friday, period := Period.Fifth } := by
  obtain ⟨h1, h2, h3⟩ := mixed_radix_all ⟨i, PER_ITERATION_eq_80 ▸ h⟩
  exact ⟨h1, h2, h3, by decide, by decide⟩

theorem with_index_mixed_radix_witness :
    (TimeSlot.with_index ⟨68, Nat.zero_le 68, by decide⟩).period.toNat = 68 % 8 :=
  (with_index_mixed_radix 68 (by decide)).2.2.1

set_option maxHeartbeats 1600000 in
/-- C4: `Period.from_time` returns `some` of exactly the period whose
half-open interval of the specification's table (in minutes since
midnight) contains `hour * 60 + minute`, and returns `none` for every
minute value below 505 or at or above 895; a time equal to an interval's
end belongs to the next interval, so 09:50 classifies to `Second` and
12:40 to `Fourth`. -/
theorem from_time_interval_table (t : NaiveTime) :
    (∀ p : Period,
      Period.from_time t = some p ↔
        p.startMinute ≤ t.hour * 60 + t.minute ∧ t.hour * 60 + t.minute < p.endMinute) ∧
    (t.hour * 60 + t.minute < 505 ∨ 895 ≤ t.hour * 60 + t.minute →
      Period.from_time t = none) ∧
    Period.from_time ⟨9, 50, 0, 0⟩ = some Period.Second ∧
    Period.from_time ⟨12, 40, 0, 0⟩ = some Period.Fourth := by
  refine ⟨?_, ?_, by decide, by decide⟩
  · intro p
    constructor
    · intro hp
      simp only [Period.from_time] at hp
      split_ifs at hp <;>
        (injection hp with hp; subst hp;
         simp only [Period.startMinute, Period.endMinute]; omega)
    · intro hb
      simp only [Period.from_time]
      cases p <;> simp only [Period.startMinute, Period.endMinute] at hb <;>
        split_ifs <;> first | rfl | (exfalso; omega)
  · intro h
    simp only [Period.from_time]
    split_ifs <;> first | rfl | (exfalso; omega)

theorem from_time_interval_table_witness :
    Period.from_time ⟨0, 30, 0, 0⟩ = none ∧
    (Period.from_time ⟨9, 50, 0, 0⟩ = some Period.Second ↔
      Period.Second.startMinute ≤ 9 * 60 + 50 ∧ 9 * 60 + 50 < Period.Second.endMinute) :=
  ⟨(from_time_interval_table ⟨0, 30, 0, 0⟩).2.1 (Or.inl (by decide)),
   (from_time_interval_table ⟨9, 50, 0, 0⟩).1 Period.Second⟩

/-- C5: the notation codec round trips: decoding the canonical token of
any `TimeSlot` through the `timeslot!` table returns that `TimeSlot`,
and re-encoding the decode of any token of the grammar (in canonical
uppercase form) returns the token unchanged. -/
theorem codec_mutual_inverse :
    (∀ s : TimeSlot, decode (encode s) = some s) ∧
    (∀ t ∈ grammarTokens, (decode t).map encode = some t) :=
  ⟨by decide, by decide⟩

theorem codec_mutual_inverse_witness :
    (decode "W2RP3").map encode = some "W2RP3" :=
  codec_mutual_inverse.2 "W2RP3" (by decide)

/-- C6: `TimeSlot.from_datetime` returns `none` exactly when the weekday
is Saturday or Sunday or the time of day classifies to no period; on
success, the week field is the supplied week, the day the converted
weekday, and the period the classified period; in particular Saturday
always fails. -/
theorem from_datetime_spec (w : Week) (d : DateTime) :
    (TimeSlot.from_datetime w d = none ↔
      d.weekday = Weekday.Sat ∨ d.weekday = Weekday.Sun ∨ Period.from_time d.time = none) ∧
    (∀ s, TimeSlot.from_datetime w d = some s →
      s.week = w ∧ ActiveDay.try_from d.weekday = Except.ok s.day ∧
        Period.from_time d.time = some s.period) ∧
    (d.weekday = Weekday.Sat → TimeSlot.from_datetime w d = none) := by
  obtain ⟨wd, tm⟩ := d
  cases wd <;> rcases h : Period.from_time tm with _ | p <;>
    simp_all [TimeSlot.from_datetime, ActiveDay.try_from, Except.toOption]

theorem from_datetime_spec_witness :
    TimeSlot.from_datetime Week.One ⟨Weekday.Sat, ⟨10, 0, 0, 0⟩⟩ = none :=
  (from_datetime_spec Week.One ⟨Weekday.Sat, ⟨10, 0, 0, 0⟩⟩).2.2 rfl

/-- C7: for every range parameterisation, the validating constructor
`new` of the ranged integer types succeeds exactly when
`MIN ≤ value ≤ MAX` (in particular `MIN` and `MAX` succeed whenever the
range is non-empty, while `MIN - 1` and `MAX + 1` fail), and whenever it
succeeds, `get` returns exactly the constructed value; stated for the
signed instantiations (over `Int`) and the `usize` one (over `Nat`). -/
theorem ranged_new_get_spec :
    (∀ MIN MAX value : Int,
      ((RangedInt.new MIN MAX value).isSome ↔ MIN ≤ value ∧ value ≤ MAX) ∧
      (∀ r, RangedInt.new MIN MAX value = some r → r.get = value) ∧
      ((RangedInt.new MIN MAX MIN).isSome ↔ MIN ≤ MAX) ∧
      ((RangedInt.new MIN MAX MAX).isSome ↔ MIN ≤ MAX) ∧
      RangedInt.new MIN MAX (MIN - 1) = none ∧
      RangedInt.new MIN MAX (MAX + 1) = none) ∧
    (∀ MIN MAX value : Nat,
      ((RangedUsize.new MIN MAX value).isSome ↔ MIN ≤ value ∧ value ≤ MAX) ∧
      (∀ r, RangedUsize.new MIN MAX value = some r → r.get = value)) := by
  constructor
  · intro MIN MAX value
    refine ⟨?_, ?_, ?_, ?_, ?_, ?_⟩
    · unfold RangedInt.new; split <;> simp_all
    · intro r hr
      unfold RangedInt.new at hr
      split at hr
      · cases hr; rfl
      · exact Option.noConfusion hr
    · unfold RangedInt.new; split <;> simp_all
    · unfold RangedInt.new; split <;> simp_all
    · unfold RangedInt.new; rw [dif_neg]; omega
    · unfold RangedInt.new; rw [dif_neg]; omega
  · intro MIN MAX value
    constructor
    · unfold RangedUsize.new; split <;> simp_all
    · intro r hr
      unfold RangedUsize.new at hr
      split at hr
      · cases hr; rfl
      · exact Option.noConfusion hr

theorem ranged_new_get_spec_witness :
    ((RangedInt.new 0 79 5).isSome ↔ (0 : Int) ≤ 5 ∧ (5 : Int) ≤ 79) ∧
    RangedInt.new 0 79 (0 - 1) = none ∧
    RangedInt.new 0 79 (79 + 1) = none ∧
    (⟨5, Nat.zero_le 5, by decide⟩ : RangedUsize 0 79).get = 5 :=
  ⟨(ranged_new_get_spec.1 0 79 5).1,
   (ranged_new_get_spec.1 0 79 5).2.2.2.2.1,
   (ranged_new_get_spec.1 0 79 5).2.2.2.2.2,
   (ranged_new_get_spec.2 0 79 5).2 ⟨5, Nat.zero_le 5, by decide⟩ rfl⟩

lemma from_usize_isSome_all : ∀ n : Fin 5, (ActiveDay.from_usize n.val).isSome := by decide

lemma period_with_index_isSome_all : ∀ n : Fin 8, (Period.with_index n.val).isSome := by decide

/-- C8: under the bound carried by the ranged index parameter, the two
options unwrapped inside `TimeSlot.with_index` are always `some`
(`ActiveDay.from_usize` of `(index % 40) / 8` and `Period.with_index` of
`index % 8`), so decoding never panics on a valid input. -/
theorem with_index_unwraps_total (r : RangedUsize 0 (TimeSlot.PER_ITERATION - 1)) :
    (ActiveDay.from_usize ((r.get % TimeSlot.PER_WEEK) / TimeSlot.PER_DAY)).isSome ∧
    (Period.with_index (r.get % TimeSlot.PER_DAY)).isSome := by
  have hW : TimeSlot.PER_WEEK = 40 := rfl
  have hD : TimeSlot.PER_DAY = 8 := rfl
  constructor
  · have h5 : (r.get % TimeSlot.PER_WEEK) / TimeSlot.PER_DAY < 5 := by rw [hW, hD]; omega
    exact from_usize_isSome_all ⟨_, h5⟩
  · have h8 : r.get % TimeSlot.PER_DAY < 8 := by rw [hD]; omega
    exact period_with_index_isSome_all ⟨_, h8⟩

theorem with_index_unwraps_total_witness :
    (ActiveDay.from_usize ((68 % TimeSlot.PER_WEEK) / TimeSlot.PER_DAY)).isSome ∧
    (Period.with_index (68 % TimeSlot.PER_DAY)).isSome :=
  with_index_unwraps_total ⟨68, Nat.zero_le 68, by decide⟩

/-- C9: the token `W2RP3` decodes to week two, Thursday, third period,
and the expansion of its `timeslot!` arm, `TimeSlot.with_index` at index
68, equals that same triple. -/
theorem decode_W2RP3 :
    decode "W2RP3" = some { week := Week.Two, day := ActiveDay.Thursday, period := Period.Third } ∧
    timeslotArm 68 = { week := Week.Two, day := ActiveDay.Thursday, period := Period.Third } := by
  decide

/-- C10: `Period.from_time` depends only on the hour and minute of its
input: any two times agreeing on hour and minute classify identically;
in particular 14:54:59 still classifies as `Fifth`. -/
theorem from_time_hour_minute_only :
    (∀ t1 t2 : NaiveTime, t1.hour = t2.hour → t1.minute = t2.minute →
      Period.from_time t1 = Period.from_time t2) ∧
    Period.from_time ⟨14, 54, 59, 0⟩ = some Period.Fifth := by
  refine ⟨fun t1 t2 h1 h2 => ?_, by decide⟩
  unfold Period.from_time
  rw [h1, h2]

theorem from_time_hour_minute_only_witness :
    Period.from_time ⟨14, 54, 59, 123456789⟩ = Period.from_time ⟨14, 54, 0, 0⟩ :=
  from_time_hour_minute_only.1 ⟨14, 54, 59, 123456789⟩ ⟨14, 54, 0, 0⟩ rfl rfl
